import Mathlib

/-!
Verification of the timing-residual post-processing module of the meerpipe
repository (meerwatch_tools.py) against its specification.

Modelling conventions:
* numpy structured arrays are modelled as Lean lists of records;
* real-valued data (numpy float32/float64) is idealised as rational numbers
  wherever a claim is about exact values, and as an extended type `EFloat`
  (finite rational, plus infinity, minus infinity, NaN, with IEEE-754
  special-value semantics) wherever a claim is about division by zero or
  non-finite results;
* file-system side effects of `get_res_fromtim` are modelled explicitly:
  the result records which files exist when the call finishes and the
  data lines written to the two residual output files;
* the external collaborators (the tempo2 fitter pipeline, the binary_tools
  functions read_par / is_binary / get_binphase, the astropy Julian-year
  conversion) are inputs of the embedding, as the source invokes them
  opaquely.
-/

namespace Meerpipe

/-- Extended floating-point value: a finite rational, or one of the IEEE-754
special values produced by numpy arithmetic (inf, -inf, NaN). Finite
arithmetic is idealised as exact rational arithmetic. -/
inductive EFloat where
  | fin (q : ℚ)
  | inf
  | negInf
  | nan
deriving DecidableEq, Repr

namespace EFloat

/-- IEEE-754 addition on extended values. -/
def add : EFloat → EFloat → EFloat
  | nan, _ => nan
  | fin _, nan => nan
  | inf, nan => nan
  | negInf, nan => nan
  | fin a, fin b => fin (a + b)
  | fin _, inf => inf
  | fin _, negInf => negInf
  | inf, fin _ => inf
  | inf, inf => inf
  | inf, negInf => nan
  | negInf, fin _ => negInf
  | negInf, inf => nan
  | negInf, negInf => negInf

/-- IEEE-754 multiplication on extended values. -/
def mul : EFloat → EFloat → EFloat
  | nan, _ => nan
  | fin _, nan => nan
  | inf, nan => nan
  | negInf, nan => nan
  | fin a, fin b => fin (a * b)
  | fin a, inf => if 0 < a then inf else if a < 0 then negInf else nan
  | fin a, negInf => if 0 < a then negInf else if a < 0 then inf else nan
  | inf, fin b => if 0 < b then inf else if b < 0 then negInf else nan
  | negInf, fin b => if 0 < b then negInf else if b < 0 then inf else nan
  | inf, inf => inf
  | inf, negInf => negInf
  | negInf, inf => negInf
  | negInf, negInf => inf

/-- IEEE-754 division on extended values: x/0 gives a signed infinity for
nonzero finite x, 0/0 gives NaN, finite/inf gives 0, inf/inf gives NaN. -/
def div : EFloat → EFloat → EFloat
  | nan, _ => nan
  | fin _, nan => nan
  | inf, nan => nan
  | negInf, nan => nan
  | fin a, fin b =>
      if b = 0 then (if 0 < a then inf else if a < 0 then negInf else nan)
      else fin (a / b)
  | fin _, inf => fin 0
  | fin _, negInf => fin 0
  | inf, fin b => if 0 ≤ b then inf else negInf
  | negInf, fin b => if 0 ≤ b then negInf else inf
  | inf, inf => nan
  | inf, negInf => nan
  | negInf, inf => nan
  | negInf, negInf => nan

/-- np.sqrt on extended values: NaN for negative or NaN input, inf for inf;
the finite nonnegative case is an approximation like the float one. -/
def sqrtE : EFloat → EFloat
  | nan => nan
  | inf => inf
  | negInf => nan
  | fin q => if q < 0 then nan else fin (Rat.sqrt q)

/-- Whether the value is an ordinary finite number. -/
def isFinite : EFloat → Bool
  | fin _ => true
  | inf => false
  | negInf => false
  | nan => false

end EFloat

/-- One TOA record as loaded by `np.loadtxt` in `get_res_fromtim`
(dtype `[mjd, res, err, freq, res_phase]`). The same record type is what
`weighted_rms`, `weighted_mean`, `rotate_toas` and `clean_toas` consume. -/
structure TOARecord where
  mjd : ℚ
  res : ℚ
  err : ℚ
  freq : ℚ
  res_phase : ℚ
deriving DecidableEq, Repr

instance : Inhabited TOARecord := ⟨⟨0, 0, 0, 0, 0⟩⟩

/-- Python exceptions that the modelled code can raise or propagate.
`emptyInputError` is the typed error the specification asks for; it is
here so that claims about it can be stated. `oserror` stands for an
exception raised while starting the external subprocess pipeline. -/
inductive PyErr where
  | zeroDivisionError
  | emptyInputError
  | indexError
  | typeError
  | oserror
deriving DecidableEq, Repr

/-- The per-record weight `1.0 / (toas[x].err ** 2)` used by both
`weighted_rms` and `weighted_mean`, in extended float arithmetic
(a zero uncertainty produces an infinite weight, as in numpy). -/
def toa_weight (r : TOARecord) : EFloat :=
  EFloat.div (EFloat.fin 1) (EFloat.fin (r.err ^ 2))

/-- Embedding of `weighted_rms` (meerwatch_tools.py lines 30-40). The
accumulators start as the Python integers 0; on an empty record set the
final division is integer 0/0, which raises ZeroDivisionError before
`np.sqrt` ever runs. On a non-empty set the accumulators are floats and
the arithmetic follows IEEE-754 special-value rules. -/
def weighted_rms (toas : List TOARecord) : Except PyErr EFloat :=
  if toas.isEmpty then
    Except.error PyErr.zeroDivisionError
  else
    let numerator := toas.foldl
      (fun acc r => EFloat.add acc (EFloat.mul (toa_weight r) (EFloat.fin (r.res ^ 2))))
      (EFloat.fin 0)
    let denominator := toas.foldl
      (fun acc r => EFloat.add acc (toa_weight r)) (EFloat.fin 0)
    Except.ok (EFloat.sqrtE (EFloat.div numerator denominator))

/-- Embedding of `weighted_mean` (meerwatch_tools.py lines 43-51), with the
same empty-set behaviour as `weighted_rms`. -/
def weighted_mean (toas : List TOARecord) : Except PyErr EFloat :=
  if toas.isEmpty then
    Except.error PyErr.zeroDivisionError
  else
    let numerator := toas.foldl
      (fun acc r => EFloat.add acc (EFloat.mul (toa_weight r) (EFloat.fin r.res)))
      (EFloat.fin 0)
    let denominator := toas.foldl
      (fun acc r => EFloat.add acc (toa_weight r)) (EFloat.fin 0)
    Except.ok (EFloat.div numerator denominator)

/-- The body of the `rotate_toas` loop (meerwatch_tools.py lines 265-279)
applied to one record: subtract the phase offset, wrap once into
(-0.5, 0.5], then rescale the time residual by the phase ratio. -/
def rotate_entry (phase_offset : ℚ) (r : TOARecord) : TOARecord :=
  let d := r.res_phase - phase_offset
  let new_res_phase := if d > 1/2 then d - 1 else if d ≤ -(1/2) then d + 1 else d
  let new_res := new_res_phase / r.res_phase * r.res
  { r with res_phase := new_res_phase, res := new_res }

/-- Embedding of `rotate_toas` (meerwatch_tools.py lines 259-282): the
in-place loop over all entries becomes a map, every entry using the same
`phase_offset` argument. -/
def rotate_toas (toas : List TOARecord) (phase_offset : ℚ) : List TOARecord :=
  toas.map (rotate_entry phase_offset)

/-- `np.median` of a list of rationals: sort, take the middle element for
odd length, the mean of the two middle elements for even length. -/
def median (l : List ℚ) : ℚ :=
  let s := List.insertionSort (fun a b => a ≤ b) l
  if l.length % 2 = 1 then s.getD (l.length / 2) 0
  else (s.getD (l.length / 2 - 1) 0 + s.getD (l.length / 2) 0) / 2

/-- Embedding of `clean_toas` (meerwatch_tools.py lines 285-293):
`np.argwhere(absvals <= outlier_factor*sigma)` yields the qualifying
indices in increasing order, and the fancy-indexing assignment copies the
records at those indices, so the result is the index-ordered selection. -/
def clean_toas (input_toas : List TOARecord) (outlier_factor : ℚ) : List TOARecord :=
  let absvals := input_toas.map (fun r => |r.res|)
  let mad := median absvals
  let sigma := 14826/10000 * mad
  let indices := (List.range input_toas.length).filter
    (fun i => decide (absvals.getD i 0 ≤ outlier_factor * sigma))
  indices.map (fun i => input_toas.getD i default)

/-- Days per year constant (meerwatch_tools.py line 26). -/
def DAYPERYEAR : ℚ := 36525/100

/-- The astropy `Time(mjd).jyear` collaborator: Julian epoch year,
`2000.0 + (mjd - 51544.5) / 365.25` (the source comment itself notes that
J2000.0 in astropy.time is built of a 365.25-day year). -/
def jyear (mjd : ℚ) : ℚ := 2000 + (mjd - 515445/10) / DAYPERYEAR

/-- Embedding of `calc_doy` (meerwatch_tools.py lines 245-250): the Python
float modulo `yrs % 1` is `yrs - floor(yrs)`. -/
def calc_doy (mjd : ℚ) : ℚ := DAYPERYEAR * (jyear mjd - ⌊jyear mjd⌋)

/-- Embedding of `calc_err_phase` (meerwatch_tools.py lines 253-255). -/
def calc_err_phase (res err res_phase : ℚ) : ℚ := res_phase / res * err

/-- Outcome of `read_par` on the timing-model file together with the
external `is_binary` detection: `is_binary(pars)` for the parsed model. -/
structure ParFile where
  isBinaryModel : Bool
deriving DecidableEq, Repr

/-- Whether the binary-phase flag `bflag` is set (meerwatch_tools.py lines
160-168): false when `read_par` raised (parse failure is caught), else the
result of `is_binary` on the parsed model. -/
def bflagOf : Option ParFile → Bool
  | none => false
  | some pars => pars.isBinaryModel

/-- One row of the expanded array `toas_exp` (fields in the order of
`dtype_list`, meerwatch_tools.py line 173, with `binphase` appended only
when `bflag` is set). -/
structure ExpRecord where
  mjd : ℚ
  doy : ℚ
  res : ℚ
  res_phase : ℚ
  err : ℚ
  err_phase : ℚ
  freq : ℚ
  binphase : Option ℚ
deriving DecidableEq, Repr

/-- Building one `toas_exp` entry from a loaded record (meerwatch_tools.py
lines 152-182); `bp` is the external `get_binphase` collaborator. -/
def expand_toa (bflag : Bool) (bp : ℚ → ℚ) (r : TOARecord) : ExpRecord :=
  { mjd := r.mjd
    doy := calc_doy r.mjd
    res := r.res
    res_phase := r.res_phase
    err := r.err
    err_phase := calc_err_phase r.res r.err r.res_phase
    freq := r.freq
    binphase := if bflag then some (bp r.mjd) else none }

/-- The field values of one serialized line, in schema order; the binary
phase column is present exactly when the record carries one. -/
def ExpRecord.fields (r : ExpRecord) : List ℚ :=
  [r.mjd, r.doy, r.res, r.res_phase, r.err, r.err_phase, r.freq] ++
    (match r.binphase with
     | some b => [b]
     | none => [])

/-- The files `get_res_fromtim` touches: the input tim file, the temporary
tim copy with the fake TOA appended, the temporary tempo2 output, and the
two residual output files. -/
inductive FName where
  | timFile
  | newtimFile
  | tempFile
  | resFile
  | compFile
deriving DecidableEq, Repr

/-- Observable outcome of one `get_res_fromtim` invocation: the uncaught
exception that propagated, if any (`none` for a normal return), which
files exist when the invocation finishes, the data lines written to each
residual file (`none` when the file was never written), the returned
record set, and the value the local variable `toas` holds after the
alignment block (which the source computes and then never uses for
output). -/
structure GetResResult where
  exc : Option PyErr
  files : List FName
  resContent : Option (List (List ℚ))
  compContent : Option (List (List ℚ))
  returned : List ExpRecord
  toas_after_align : List TOARecord
deriving DecidableEq, Repr

/-- The output stage of `get_res_fromtim` (meerwatch_tools.py lines
215-242): an empty `toas_exp` is written to `res_file` by both `savetxt`
calls of the blank branch (lines 221-222), so `comp_file` is never
written there; a non-empty `toas_exp` is written to both files with the
same columns; a singleton `toas_exp` is replaced by an empty return
value after the files are written (lines 237-240). -/
def writeResults (toas_exp : List ExpRecord) (toas1 : List TOARecord) : GetResResult :=
  if toas_exp.length = 0 then
    { exc := none
      files := [FName.timFile, FName.resFile]
      resContent := some []
      compContent := none
      returned := if toas_exp.length = 1 then [] else toas_exp
      toas_after_align := toas1 }
  else
    { exc := none
      files := [FName.timFile, FName.resFile, FName.compFile]
      resContent := some (toas_exp.map ExpRecord.fields)
      compContent := some (toas_exp.map ExpRecord.fields)
      returned := if toas_exp.length = 1 then [] else toas_exp
      toas_after_align := toas1 }

/-- Embedding of `get_res_fromtim` (meerwatch_tools.py lines 54-242).

Inputs: the `align` flag; `fit`, the outcome of the tempo2-grep-awk
subprocess block of lines 112-124 (`Except.error` when the invocation
raises, e.g. the fitter executable cannot be started, `Except.ok rows`
when the temp file is produced and `np.loadtxt` parses `rows` from it);
`par`, the outcome of `read_par` (`none` when it raises); `bp`, the
external `get_binphase` collaborator.

When `align` is set the temporary tim copy is created before the
subprocess block (lines 83-109) and removed only at lines 130-134, which
run only if the subprocess block returned normally; an exception there
propagates with the copy still on disk.

A stream with exactly one data row is squeezed by `np.loadtxt` (default
`ndmin=0`) to a 0-d array, so `len(toas)` at line 153 raises TypeError:
the invocation propagates the exception after the line-134 and line-148
cleanups but before any derived field, flag, file write or return, and
the single-row guards at lines 189 and 237-240 are unreachable for such
streams.

The alignment block of lines 186-212 mutates the local array `toas`
(clearing it, or rotating it and deleting the fake entry), but the
serialized and returned array is `toas_exp`, built at lines 172-182
before that block from the unrotated values and never rebuilt. With
`align` set and an empty `toas`, line 203 indexes `toas[-1]` and raises
IndexError. -/
def get_res_fromtim (align : Bool) (fit : Except Unit (List TOARecord))
    (par : Option ParFile) (bp : ℚ → ℚ) : GetResResult :=
  match fit with
  | Except.error _ =>
      { exc := some PyErr.oserror
        files := [FName.timFile] ++ (if align then [FName.newtimFile] else []) ++ [FName.tempFile]
        resContent := none
        compContent := none
        returned := []
        toas_after_align := [] }
  | Except.ok toas0 =>
      if toas0.length = 1 then
        { exc := some PyErr.typeError
          files := [FName.timFile]
          resContent := none
          compContent := none
          returned := []
          toas_after_align := [] }
      else
        let bflag := bflagOf par
        let toas_exp := toas0.map (expand_toa bflag bp)
        if align then
          if toas0.length = 1 then
            writeResults toas_exp []
          else
            match toas0.getLast? with
            | none =>
                { exc := some PyErr.indexError
                  files := [FName.timFile]
                  resContent := none
                  compContent := none
                  returned := []
                  toas_after_align := [] }
            | some lastRec =>
                writeResults toas_exp ((rotate_toas toas0 lastRec.res_phase).dropLast)
        else
          writeResults toas_exp toas0

instance : Inhabited ExpRecord := ⟨⟨0, 0, 0, 0, 0, 0, 0, none⟩⟩

/-- A trivial stand-in for the external `get_binphase` collaborator, used
to instantiate the embedding at concrete inputs. -/
def constZero : ℚ → ℚ := fun _ => 0

/-- A concrete aligned input: one real record and the alignment-marker
record last (residual phase 1/4), as parsed from the fitter stream. -/
def c1_input : List TOARecord :=
  [⟨58000, 1/1000, 1/10000, 1284, 1/10⟩, ⟨57754, 1/400, 1/100000, 1284, 1/4⟩]

/-- The outcome of running `get_res_fromtim` with `align` on `c1_input`. -/
def c1_out : GetResResult := get_res_fromtim true (Except.ok c1_input) none constZero

/-! Helper lemmas. -/

/-- Reading a mapped list at an in-bounds index through `getD`. -/
theorem getD_map_of_lt {α β : Type} (f : α → β) {l : List α} {i : ℕ}
    (hi : i < l.length) (d : α) (d2 : β) :
    (l.map f).getD i d2 = f (l.getD i d) := by
  rw [List.getD_eq_getElem?_getD, List.getD_eq_getElem?_getD, List.getElem?_map,
    List.getElem?_eq_getElem hi]
  rfl

/-- Selecting the elements of `l` at the indices of `range` that satisfy a
predicate on the element is the same as filtering `l` by that predicate:
this is the argwhere-then-fancy-index idiom of `clean_toas`. -/
theorem filter_range_getD_map {α : Type} (q : α → Bool) (d : α) :
    ∀ l : List α,
      ((List.range l.length).filter (fun i => q (l.getD i d))).map (fun i => l.getD i d)
        = l.filter q := by
  intro l
  induction l with
  | nil => rfl
  | cons a t ih =>
    have hcomp1 : ((fun i => q ((a :: t).getD i d)) ∘ Nat.succ) = fun i => q (t.getD i d) := rfl
    have hcomp2 : ((fun i => (a :: t).getD i d) ∘ Nat.succ) = fun i => t.getD i d := rfl
    rw [List.length_cons, List.range_succ_eq_map, List.filter_cons]
    by_cases hqa : q a = true
    · rw [List.getD_cons_zero, if_pos hqa, List.map_cons, List.filter_map, List.map_map,
        hcomp1, hcomp2, ih, List.filter_cons, if_pos hqa]
      rfl
    · rw [List.getD_cons_zero, if_neg hqa, List.filter_map, List.map_map,
        hcomp1, hcomp2, ih, List.filter_cons, if_neg hqa]

/-- Selecting by index those records whose absolute residual is below a
bound equals filtering the records by that bound. -/
theorem select_abs_le (toas : List TOARecord) (c : ℚ) :
    ((List.range toas.length).filter
        (fun i => decide ((toas.map (fun r => |r.res|)).getD i 0 ≤ c))).map
      (fun i => toas.getD i default)
      = toas.filter (fun r => decide (|r.res| ≤ c)) := by
  have hcong :
      ∀ i ∈ List.range toas.length,
        (decide ((toas.map (fun r => |r.res|)).getD i 0 ≤ c))
          = (fun j => decide (|(toas.getD j default).res| ≤ c)) i := by
    intro i hi
    have hlt : i < toas.length := List.mem_range.mp hi
    rw [getD_map_of_lt (fun r => |r.res|) hlt default 0]
  rw [List.filter_congr hcong]
  have h2 := filter_range_getD_map (fun r => decide (|r.res| ≤ c)) (default : TOARecord) toas
  exact h2

/-- `clean_toas` is the order-preserving filter keeping exactly the records
whose absolute residual is at most `factor * 1.4826 * median of absolute
residuals`. -/
theorem clean_toas_eq_filter (toas : List TOARecord) (f : ℚ) :
    clean_toas toas f
      = toas.filter (fun r =>
          decide (|r.res| ≤ f * (14826/10000 * median (toas.map (fun r2 => |r2.res|))))) := by
  simp only [clean_toas]
  exact select_abs_le toas (f * (14826/10000 * median (toas.map (fun r => |r.res|))))

/-- Adding anything to a non-finite value cannot produce a finite value. -/
theorem add_nonfinite_left (x y : EFloat) (h : x.isFinite = false) :
    (EFloat.add x y).isFinite = false := by
  cases x <;> cases y <;> simp_all [EFloat.add, EFloat.isFinite]

/-- Adding a non-finite value to anything cannot produce a finite value. -/
theorem add_nonfinite_right (x y : EFloat) (h : y.isFinite = false) :
    (EFloat.add x y).isFinite = false := by
  cases x <;> cases y <;> simp_all [EFloat.add, EFloat.isFinite]

/-- A fold of additions starting from a non-finite accumulator stays
non-finite. -/
theorem foldl_add_nonfinite (f : TOARecord → EFloat) (l : List TOARecord) :
    ∀ acc : EFloat, acc.isFinite = false →
      (l.foldl (fun a r => EFloat.add a (f r)) acc).isFinite = false := by
  induction l with
  | nil => intro acc h; simpa using h
  | cons a t ih => intro acc h; exact ih _ (add_nonfinite_left _ _ h)

/-- A fold of additions over a list containing a non-finite term is
non-finite, whatever the accumulator. -/
theorem foldl_add_term_nonfinite (f : TOARecord → EFloat) :
    ∀ (l : List TOARecord) (acc : EFloat) (r : TOARecord), r ∈ l → (f r).isFinite = false →
      (l.foldl (fun a x => EFloat.add a (f x)) acc).isFinite = false := by
  intro l
  induction l with
  | nil => intro acc r hr; exact absurd hr (List.not_mem_nil r)
  | cons a t ih =>
    intro acc r hr hnf
    rcases List.mem_cons.mp hr with h1 | h2
    · subst h1; exact foldl_add_nonfinite f t _ (add_nonfinite_right _ _ hnf)
    · exact ih _ r h2 hnf

/-- The weight of a record is positive infinity when its uncertainty is
zero, and a nonnegative finite value otherwise. -/
theorem toa_weight_cases (r : TOARecord) :
    toa_weight r = EFloat.inf ∨ ∃ q, 0 ≤ q ∧ toa_weight r = EFloat.fin q := by
  unfold toa_weight EFloat.div
  by_cases h : r.err ^ 2 = 0
  · left
    simp [h]
  · right
    refine ⟨1 / r.err ^ 2, ?_, by simp [h]⟩
    have hpos : 0 < r.err ^ 2 := lt_of_le_of_ne (sq_nonneg r.err) (Ne.symm h)
    positivity

/-- Sum of a positive infinity and any nonnegative-or-infinite value. -/
theorem add_nn_cases (x y : EFloat)
    (hx : x = EFloat.inf ∨ ∃ q, 0 ≤ q ∧ x = EFloat.fin q)
    (hy : y = EFloat.inf ∨ ∃ q, 0 ≤ q ∧ y = EFloat.fin q) :
    ((EFloat.add x y) = EFloat.inf ∨ ∃ q, 0 ≤ q ∧ EFloat.add x y = EFloat.fin q)
      ∧ ((x = EFloat.inf ∨ y = EFloat.inf) → EFloat.add x y = EFloat.inf) := by
  rcases hx with hx | ⟨a, ha, hx⟩ <;> rcases hy with hy | ⟨b, hb, hy⟩ <;> subst hx <;> subst hy
  · exact ⟨Or.inl rfl, fun _ => rfl⟩
  · exact ⟨Or.inl rfl, fun _ => rfl⟩
  · exact ⟨Or.inl rfl, fun _ => rfl⟩
  · constructor
    · exact Or.inr ⟨a + b, add_nonneg ha hb, rfl⟩
    · rintro (h | h) <;> exact absurd h (by simp)

/-- A fold of weight additions from a nonnegative finite accumulator over a
list whose weights are nonnegative-or-infinite, one of them infinite, is
positive infinity. -/
theorem foldl_add_nn_inf :
    ∀ (l : List TOARecord) (acc : EFloat),
      (acc = EFloat.inf ∨ ∃ q, 0 ≤ q ∧ acc = EFloat.fin q) →
      (acc = EFloat.inf ∨ ∃ r ∈ l, toa_weight r = EFloat.inf) →
      l.foldl (fun a x => EFloat.add a (toa_weight x)) acc = EFloat.inf := by
  intro l
  induction l with
  | nil =>
    intro acc hnn hinf
    rcases hinf with h | ⟨r, hr, _⟩
    · simpa using h
    · exact absurd hr (List.not_mem_nil r)
  | cons a t ih =>
    intro acc hnn hinf
    have hw := toa_weight_cases a
    have hstep := add_nn_cases acc (toa_weight a) hnn hw
    refine ih (EFloat.add acc (toa_weight a)) hstep.1 ?_
    rcases hinf with h | ⟨r, hr, hrw⟩
    · exact Or.inl (hstep.2 (Or.inl h))
    · rcases List.mem_cons.mp hr with h1 | h2
      · subst h1; exact Or.inl (hstep.2 (Or.inr hrw))
      · exact Or.inr ⟨r, h2, hrw⟩

/-- Dividing a non-finite value by positive infinity gives NaN. -/
theorem div_nonfinite_inf (x : EFloat) (h : x.isFinite = false) :
    EFloat.div x EFloat.inf = EFloat.nan := by
  cases x <;> simp_all [EFloat.div, EFloat.isFinite]

/-- The weight of a zero-uncertainty record is positive infinity. -/
theorem toa_weight_of_err_zero (r : TOARecord) (h : r.err = 0) :
    toa_weight r = EFloat.inf := by
  simp [toa_weight, EFloat.div, h]

/-- Infinity times a finite value is never finite. -/
theorem mul_inf_fin_nonfinite (q : ℚ) :
    (EFloat.mul EFloat.inf (EFloat.fin q)).isFinite = false := by
  simp only [EFloat.mul]
  by_cases h1 : 0 < q <;> by_cases h2 : q < 0 <;>
    simp [h1, h2, EFloat.isFinite]

/-- The residual phase written by one rotation step. -/
theorem rotate_entry_phase (o : ℚ) (r : TOARecord) :
    (rotate_entry o r).res_phase =
      (if r.res_phase - o > 1/2 then r.res_phase - o - 1
       else if r.res_phase - o ≤ -(1/2) then r.res_phase - o + 1
       else r.res_phase - o) := rfl

/-- The time residual written by one rotation step is the phase-ratio
rescaling of the old one. -/
theorem rotate_entry_res (o : ℚ) (r : TOARecord) :
    (rotate_entry o r).res = (rotate_entry o r).res_phase / r.res_phase * r.res := rfl

/-- Number of serialized columns of an expanded record: 8 when the binary
flag was set, 7 otherwise. -/
theorem fields_length (bflag : Bool) (bp : ℚ → ℚ) (r : TOARecord) :
    ((expand_toa bflag bp r).fields).length = if bflag = true then 8 else 7 := by
  cases bflag <;> simp [expand_toa, ExpRecord.fields]

/-- The output stage never leaves the temporary tim copy on disk. -/
theorem newtim_notin_writeResults (e : List ExpRecord) (t : List TOARecord) :
    FName.newtimFile ∉ (writeResults e t).files := by
  unfold writeResults
  by_cases h : e.length = 0 <;> simp [h]

/-- For a parsed stream of at least two rows (so that the line-153
single-row TypeError cannot fire), both residual files are written, with
the same lines: the serialization of `toas_exp`. -/
theorem get_res_ok_contents (align : Bool) (rows : List TOARecord)
    (h2 : 2 ≤ rows.length) (par : Option ParFile) (bp : ℚ → ℚ) :
    (get_res_fromtim align (Except.ok rows) par bp).resContent
        = some ((rows.map (expand_toa (bflagOf par) bp)).map ExpRecord.fields) ∧
    (get_res_fromtim align (Except.ok rows) par bp).compContent
        = some ((rows.map (expand_toa (bflagOf par) bp)).map ExpRecord.fields) := by
  have hlen : rows.length ≠ 0 := by omega
  have h1 : rows.length ≠ 1 := by omega
  have hne : rows ≠ [] := fun hh => hlen (by simp [hh])
  have hmaplen : (rows.map (expand_toa (bflagOf par) bp)).length ≠ 0 := by
    simpa using hlen
  unfold get_res_fromtim
  cases align
  · simp [h1, writeResults, hmaplen, hne]
  · obtain ⟨x, hx⟩ := Option.isSome_iff_exists.mp (List.getLast?_isSome.mpr hne)
    simp [h1, hx, writeResults, hmaplen, hne]

/-! Claim theorems. -/

/-- C1: the claim that with `align` set and N+1 parsed records (marker
last) the serialized and returned record set has exactly N rotated records
is false on the code: `toas_exp` is built before the alignment block and
never rebuilt, so with 2 parsed records the files and the return value
still hold both records with their unrotated residual phases, while the
rotated, marker-deleted single-record set is computed into the local
`toas` and discarded. -/
theorem align_rotation_never_reaches_output :
    c1_out.returned.length = 2
    ∧ (c1_out.returned.getD 0 default).res_phase = 1/10
    ∧ (c1_out.returned.getD 1 default).res_phase = 1/4
    ∧ (c1_out.resContent.getD []).length = 2
    ∧ (c1_out.compContent.getD []).length = 2
    ∧ c1_out.toas_after_align = [⟨58000, -3/2000, 1/10000, 1284, -3/20⟩] := by
  norm_num [c1_out, c1_input, get_res_fromtim, writeResults, bflagOf, expand_toa,
    rotate_toas, rotate_entry, constZero]

/-- C2: a record processed by `rotate_toas` with offset `o` gets residual
phase `phase - o`, corrected by exactly one addition or subtraction of 1
when that difference leaves (-0.5, 0.5] on either side, so the result lies
in (-0.5, 0.5] again; the time residual is rescaled by
`new_res = (new_phase / old_phase) * old_res`, preserving the
phase-to-time ratio. -/
theorem rotate_toas_step_spec (toas : List TOARecord) (o : ℚ) (i : ℕ)
    (hi : i < toas.length)
    (hp1 : -(1/2) < (toas.getD i default).res_phase)
    (hp2 : (toas.getD i default).res_phase ≤ 1/2)
    (ho1 : -(1/2) < o) (ho2 : o ≤ 1/2)
    (hp0 : (toas.getD i default).res_phase ≠ 0) :
    ((rotate_toas toas o).getD i default).res_phase
        = (if (toas.getD i default).res_phase - o > 1/2
             then (toas.getD i default).res_phase - o - 1
           else if (toas.getD i default).res_phase - o ≤ -(1/2)
             then (toas.getD i default).res_phase - o + 1
           else (toas.getD i default).res_phase - o)
      ∧ (-(1/2) < ((rotate_toas toas o).getD i default).res_phase
          ∧ ((rotate_toas toas o).getD i default).res_phase ≤ 1/2)
      ∧ ((rotate_toas toas o).getD i default).res
          = ((rotate_toas toas o).getD i default).res_phase
              / (toas.getD i default).res_phase * (toas.getD i default).res
      ∧ ((rotate_toas toas o).getD i default).res * (toas.getD i default).res_phase
          = ((rotate_toas toas o).getD i default).res_phase * (toas.getD i default).res := by
  have hrot : (rotate_toas toas o).getD i default
      = rotate_entry o (toas.getD i default) := by
    unfold rotate_toas
    rw [getD_map_of_lt (rotate_entry o) hi default default]
  set r := toas.getD i default with hr
  refine ⟨by rw [hrot]; exact rotate_entry_phase o r, ?_, ?_, ?_⟩
  · rw [hrot, rotate_entry_phase o r]
    split_ifs with h1 h2
    · constructor <;> linarith
    · constructor <;> linarith
    · constructor <;> linarith
  · rw [hrot]
    exact rotate_entry_res o r
  · rw [hrot, rotate_entry_res o r]
    field_simp

/-- C2 witness: a concrete in-range record rotated by a concrete in-range
offset. -/
theorem rotate_toas_step_spec_witness :
    ((rotate_toas [⟨0, 2, 1, 1, 2/5⟩] (3/10)).getD 0 default).res_phase = 1/10 := by
  have h := rotate_toas_step_spec [⟨0, 2, 1, 1, 2/5⟩] (3/10) 0
    (by norm_num) (by norm_num) (by norm_num) (by norm_num) (by norm_num) (by norm_num)
  rw [h.1]
  norm_num

/-- C3 counterexample: rotating a residual phase of 0.9 by an offset of
-0.3 yields 0.2, not the -0.4 the claim states. -/
theorem rotate_wrap_cex :
    ((rotate_toas [⟨0, 1, 1, 1, 9/10⟩] (-(3/10))).getD 0 default).res_phase = 1/5
    ∧ ((1 : ℚ)/5) ≠ -(2/5) := by
  constructor
  · norm_num [rotate_toas, rotate_entry]
  · norm_num

/-- C3 amended: the intermediate value 0.9 - (-0.3) = 1.2 exceeds 0.5, so
1.0 is subtracted once and the wrapped residual phase is exactly 0.2
(neither 1.2 nor -0.4). -/
theorem rotate_wrap_amended :
    (9/10 : ℚ) - (-(3/10)) = 12/10
    ∧ ((12/10 : ℚ) > 1/2)
    ∧ ((rotate_toas [⟨0, 1, 1, 1, 9/10⟩] (-(3/10))).getD 0 default).res_phase
        = (9/10 : ℚ) - (-(3/10)) - 1
    ∧ ((rotate_toas [⟨0, 1, 1, 1, 9/10⟩] (-(3/10))).getD 0 default).res_phase ≠ 12/10 := by
  refine ⟨by norm_num, by norm_num, ?_, ?_⟩ <;> norm_num [rotate_toas, rotate_entry]

/-- C4: the claim that a single-row stream yields an empty returned record
set is false of the code: `np.loadtxt` squeezes the one structured row to
a 0-d array, `len(toas)` at line 153 raises TypeError, and the invocation
propagates the exception with no file written and nothing returned - the
single-row guards at lines 189-194 and 237-240, whose log messages state
the intended empty-set handling, are unreachable for such streams. Shown
here at a one-row stream holding only the alignment-marker record, with
and without `align`. -/
theorem single_row_raises_type_error :
    (get_res_fromtim true (Except.ok [⟨57754, 1, 1, 1284, 0⟩]) none constZero).exc
        = some PyErr.typeError
    ∧ (get_res_fromtim false (Except.ok [⟨57754, 1, 1, 1284, 0⟩]) none constZero).exc
        = some PyErr.typeError
    ∧ (get_res_fromtim true (Except.ok [⟨57754, 1, 1, 1284, 0⟩]) none constZero).resContent
        = none
    ∧ (get_res_fromtim false (Except.ok [⟨57754, 1, 1, 1284, 0⟩]) none constZero).resContent
        = none := by
  refine ⟨rfl, rfl, rfl, rfl⟩

/-- C5 counterexample: on an empty record set neither statistic fails with
the typed EmptyInputError the claim names. -/
theorem weighted_empty_cex :
    weighted_mean [] ≠ Except.error PyErr.emptyInputError
    ∧ weighted_rms [] ≠ Except.error PyErr.emptyInputError := by
  refine ⟨?_, ?_⟩ <;> simp [weighted_mean, weighted_rms]

/-- C5 amended: on an empty record set both statistics fail by raising
ZeroDivisionError (the integer accumulators make the final division 0/0);
the division is never silently coerced to zero or NaN. -/
theorem weighted_empty_zero_division :
    weighted_mean [] = Except.error PyErr.zeroDivisionError
    ∧ weighted_rms [] = Except.error PyErr.zeroDivisionError :=
  ⟨rfl, rfl⟩

/-- C6: `clean_toas` keeps exactly the records with absolute residual at
most `factor * 1.4826 * median of absolute residuals`, preserving their
relative order, and on residuals [1,1,1,1,100] with factor 3 it keeps the
four records with residual 1 in their original order and drops the 100. -/
theorem clean_toas_spec :
    (∀ (toas : List TOARecord) (f : ℚ),
      clean_toas toas f
        = toas.filter (fun r =>
            decide (|r.res| ≤ f * (14826/10000 * median (toas.map (fun r2 => |r2.res|))))))
    ∧ (∀ (toas : List TOARecord) (f : ℚ), (clean_toas toas f).Sublist toas)
    ∧ clean_toas [⟨1,1,1,10,0⟩, ⟨2,1,1,20,0⟩, ⟨3,1,1,30,0⟩, ⟨4,1,1,40,0⟩, ⟨5,100,1,50,0⟩] 3
        = [⟨1,1,1,10,0⟩, ⟨2,1,1,20,0⟩, ⟨3,1,1,30,0⟩, ⟨4,1,1,40,0⟩] := by
  refine ⟨clean_toas_eq_filter, ?_, ?_⟩
  · intro toas f
    rw [clean_toas_eq_filter]
    exact List.filter_sublist toas
  · norm_num [clean_toas, median, List.insertionSort, List.orderedInsert,
      List.range_succ, List.filter]

/-- C7: for every parsed stream of at least two rows (a zero-row set never
reaches the compact write, see C9, and a one-row set raises TypeError at
line 153, see C4) both sibling files are written, they carry the same
number of lines, every line of each has 8 columns when the timing model
parsed and was detected binary and 7 columns otherwise, and the binary
flag is set exactly when parsing succeeded and the model is binary. -/
theorem binary_column_iff (align : Bool) (rows : List TOARecord)
    (h2 : 2 ≤ rows.length) (par : Option ParFile) (bp : ℚ → ℚ) :
    ∃ rc cc,
      (get_res_fromtim align (Except.ok rows) par bp).resContent = some rc
      ∧ (get_res_fromtim align (Except.ok rows) par bp).compContent = some cc
      ∧ rc.length = cc.length
      ∧ (∀ row ∈ rc, row.length = if bflagOf par = true then 8 else 7)
      ∧ (∀ row ∈ cc, row.length = if bflagOf par = true then 8 else 7)
      ∧ (bflagOf par = true ↔ ∃ p, par = some p ∧ p.isBinaryModel = true) := by
  obtain ⟨hres, hcomp⟩ := get_res_ok_contents align rows h2 par bp
  refine ⟨_, _, hres, hcomp, rfl, ?_, ?_, ?_⟩
  · intro row hrow
    obtain ⟨e, he, hrow2⟩ := List.mem_map.mp hrow
    obtain ⟨t, ht, he2⟩ := List.mem_map.mp he
    rw [← hrow2, ← he2]
    exact fields_length (bflagOf par) bp t
  · intro row hrow
    obtain ⟨e, he, hrow2⟩ := List.mem_map.mp hrow
    obtain ⟨t, ht, he2⟩ := List.mem_map.mp he
    rw [← hrow2, ← he2]
    exact fields_length (bflagOf par) bp t
  · cases par with
    | none => simp [bflagOf]
    | some p => simp [bflagOf]

/-- C7 witness: a two-row stream with a successfully parsed binary model. -/
theorem binary_column_iff_witness :
    ∃ rc cc,
      (get_res_fromtim false (Except.ok [⟨1, 1, 1, 1, 0⟩, ⟨2, 1, 1, 1, 0⟩])
            (some ⟨true⟩) constZero).resContent = some rc
      ∧ (get_res_fromtim false (Except.ok [⟨1, 1, 1, 1, 0⟩, ⟨2, 1, 1, 1, 0⟩])
            (some ⟨true⟩) constZero).compContent = some cc
      ∧ rc.length = cc.length
      ∧ (∀ row ∈ rc, row.length = if bflagOf (some ⟨true⟩) = true then 8 else 7)
      ∧ (∀ row ∈ cc, row.length = if bflagOf (some ⟨true⟩) = true then 8 else 7)
      ∧ (bflagOf (some ⟨true⟩) = true ↔ ∃ p, (some ⟨true⟩ : Option ParFile) = some p
            ∧ p.isBinaryModel = true) :=
  binary_column_iff false [⟨1, 1, 1, 1, 0⟩, ⟨2, 1, 1, 1, 0⟩] (by simp)
    (some ⟨true⟩) constZero

/-- C8 counterexample: with `align` set, when the subprocess invocation of
the fitter raises, the invocation ends with the exception propagating and
the temporary tim copy still existing, so deletion is not unconditional on
failure paths. -/
theorem temp_tim_leak_cex :
    (get_res_fromtim true (Except.error ()) none constZero).exc = some PyErr.oserror
    ∧ FName.newtimFile ∈ (get_res_fromtim true (Except.error ()) none constZero).files := by
  constructor
  · rfl
  · simp [get_res_fromtim]

/-- C8 amended: whenever the subprocess pipeline of lines 112-124 completes
without raising - whatever it produced: zero rows, one row (where line 153
later raises TypeError), or many, and including a started fitter that
exited abnormally, since the wrapper does not raise on a nonzero exit -
the cleanup at lines 130-134 has removed the temporary tim copy before
any later code can raise, so the copy is never among the files left when
the invocation finishes; only an exception raised in the subprocess block
itself leaks it. -/
theorem temp_tim_deleted_fit_completed (rows : List TOARecord)
    (par : Option ParFile) (bp : ℚ → ℚ) :
    FName.newtimFile ∉ (get_res_fromtim true (Except.ok rows) par bp).files := by
  unfold get_res_fromtim
  by_cases h1 : rows.length = 1
  · simp [h1]
  · simp only [h1, if_false, if_true]
    cases hlast : rows.getLast? with
    | none =>
      simp [h1, hlast]
    | some x =>
      simp only [h1, hlast, if_true, if_neg]
      exact newtim_notin_writeResults _ _

/-- C9: the claim that both sibling files are written even for an empty
record set is false on the code: for an empty set the blank-file branch
calls `np.savetxt` on `res_file` twice (lines 221-222 both name
`res_file`), so the full-precision file exists with zero data lines but
the compact file is never written. -/
theorem empty_set_comp_missing :
    (get_res_fromtim false (Except.ok []) none constZero).resContent = some []
    ∧ FName.resFile ∈ (get_res_fromtim false (Except.ok []) none constZero).files
    ∧ (get_res_fromtim false (Except.ok []) none constZero).compContent = none
    ∧ FName.compFile ∉ (get_res_fromtim false (Except.ok []) none constZero).files := by
  refine ⟨?_, ?_, ?_, ?_⟩
  · norm_num [get_res_fromtim, writeResults, bflagOf]
  · norm_num [get_res_fromtim, writeResults, bflagOf]
  · norm_num [get_res_fromtim, writeResults, bflagOf]
  · norm_num [get_res_fromtim, writeResults, bflagOf]
    decide

/-- C10: on a non-empty record set holding a record with zero uncertainty
neither statistic raises: each returns a value, and that value is not
finite (the infinite weight drives the weighted sums to NaN). -/
theorem zero_err_nonfinite (toas : List TOARecord) (hne : toas ≠ [])
    (r : TOARecord) (hr : r ∈ toas) (h0 : r.err = 0) :
    (∃ v, weighted_mean toas = Except.ok v ∧ v.isFinite = false)
    ∧ (∃ v, weighted_rms toas = Except.ok v ∧ v.isFinite = false) := by
  have hde : toas.foldl (fun a x => EFloat.add a (toa_weight x)) (EFloat.fin 0)
      = EFloat.inf :=
    foldl_add_nn_inf toas (EFloat.fin 0) (Or.inr ⟨0, le_refl 0, rfl⟩)
      (Or.inr ⟨r, hr, toa_weight_of_err_zero r h0⟩)
  have hempty : toas.isEmpty = false := by
    cases toas with
    | nil => exact absurd rfl hne
    | cons a t => rfl
  constructor
  · have hnum : (toas.foldl
        (fun a x => EFloat.add a (EFloat.mul (toa_weight x) (EFloat.fin x.res)))
        (EFloat.fin 0)).isFinite = false := by
      refine foldl_add_term_nonfinite _ toas _ r hr ?_
      rw [toa_weight_of_err_zero r h0]
      exact mul_inf_fin_nonfinite r.res
    refine ⟨EFloat.nan, ?_, rfl⟩
    simp only [weighted_mean, hempty, Bool.false_eq_true, if_false]
    rw [hde, div_nonfinite_inf _ hnum]
  · have hnum : (toas.foldl
        (fun a x => EFloat.add a (EFloat.mul (toa_weight x) (EFloat.fin (x.res ^ 2))))
        (EFloat.fin 0)).isFinite = false := by
      refine foldl_add_term_nonfinite _ toas _ r hr ?_
      rw [toa_weight_of_err_zero r h0]
      exact mul_inf_fin_nonfinite (r.res ^ 2)
    refine ⟨EFloat.nan, ?_, rfl⟩
    simp only [weighted_rms, hempty, Bool.false_eq_true, if_false]
    rw [hde, div_nonfinite_inf _ hnum]
    rfl

/-- C10 witness: one record with zero uncertainty. -/
theorem zero_err_nonfinite_witness :
    (∃ v, weighted_mean [⟨0, 1, 0, 1284, 0⟩] = Except.ok v ∧ v.isFinite = false)
    ∧ (∃ v, weighted_rms [⟨0, 1, 0, 1284, 0⟩] = Except.ok v ∧ v.isFinite = false) :=
  zero_err_nonfinite [⟨0, 1, 0, 1284, 0⟩] (by simp) ⟨0, 1, 0, 1284, 0⟩
    (List.mem_singleton.mpr rfl) rfl

end Meerpipe
